import Mathlib

/-!
Shallow embedding of the padertorch repository fragments relevant to the
verified claims: the loss functions in `padertorch/ops/losses/loss.py` and
the training hooks in `padertorch/train/hooks.py`.  Tensors are modelled
over exact rationals; a tensor of shape `(N, E)` is a list of `N` rows.
-/

namespace Padertorch

/-- Model of the `torch.Tensor` / `torch.nn.utils.rnn.PackedSequence`
dispatch used by `softmax_cross_entropy` and `deep_clustering_loss`:
each argument is either a plain tensor (payload type `α`) or a packed
sequence (payload type `β`). -/
inductive TorchSeq (α β : Type) where
  | tensor (data : α)
  | packed (data : β)
deriving DecidableEq

/-- The runtime type name that the python `ValueError` message reports via
`type(x)` for the two accepted input classes. -/
def torchTypeName {α β : Type} : TorchSeq α β → String
  | .tensor _ => "Tensor"
  | .packed _ => "PackedSequence"

/-- Errors raised by the loss functions: `ValueError` for the type
dispatch, `AssertionError` for the python `assert` statements. -/
inductive PtError where
  | valueError (msg : String)
  | assertionError (msg : String)
deriving DecidableEq

/-- Number of columns of a list-of-rows tensor (width of the first row). -/
def width (m : List (List ℚ)) : ℕ := (m.headD []).length

/-- Column `j` of a list-of-rows tensor. -/
def column (m : List (List ℚ)) (j : ℕ) : List ℚ := m.map (fun r => r.getD j 0)

/-- Dot product of two sample vectors. -/
def dot (u v : List ℚ) : ℚ := (List.zipWith (fun a b => a * b) u v).sum

/-- `torch.sum(einsum('ne,nE->eE', a, b) ** 2)`: the squared Frobenius norm
of the Gram-type matrix `aᵀ b`, summing `(Σₙ a[n,i]·b[n,j])²` over all
column pairs `(i, j)`. -/
def gramSqSum (a b : List (List ℚ)) : ℚ :=
  ((List.range (width a)).map (fun i =>
    ((List.range (width b)).map (fun j => (dot (column a i) (column b j)) ^ 2)).sum)).sum

/-- The numerator of `deep_clustering_loss` for plain tensors:
`torch.sum(einsum(x,x)**2) - 2*torch.sum(einsum(x,t)**2) + torch.sum(einsum(t,t)**2)`. -/
def dcNumerator (x t : List (List ℚ)) : ℚ :=
  gramSqSum x x - 2 * gramSqSum x t + gramSqSum t t

/-- The plain-tensor branch of `deep_clustering_loss` exactly as the source
computes it: the numerator combined with `// N ** 2`, which in torch is
FLOOR division of the scalar tensor by the integer `N²`. -/
def deep_clustering_loss_plain (x t : List (List ℚ)) : ℚ :=
  ((Int.floor (dcNumerator x t / ((x.length : ℚ) ^ 2)) : ℤ) : ℚ)

/-- The spec reading of the same expression: the squared-Frobenius-norm
combination normalized by `N²` with TRUE division.  Kept separate from
`deep_clustering_loss_plain` so the two can be compared. -/
def deep_clustering_loss_true_division (x t : List (List ℚ)) : ℚ :=
  dcNumerator x t / ((x.length : ℚ) ^ 2)

/-- `view(-1, E)` applied to a `(T, F, E)` slice: concatenate the `F`
rows of every frame into one list of `E`-dimensional rows. -/
def flattenFrames (frames : List (List (List ℚ))) : List (List ℚ) := frames.flatten

/-- Arithmetic mean as `numpy`/`torch` compute it for a nonempty list
(`sum / len`); division by zero in `ℚ` yields `0` for the empty list. -/
def npMean (l : List ℚ) : ℚ := l.sum / (l.length : ℚ)

/-- The packed-sequence branch of `deep_clustering_loss`: a packed pair is
modelled as the per-batch-element lists of `(F, E)` frames that
`pad_packed_sequence` recovers; the source truncates `x` to the frame count
taken from `t`, flattens frames times bins into rows, recurses with the
plain branch and averages over the batch. -/
def dcPacked (xd td : List (List (List (List ℚ)))) : ℚ :=
  npMean ((List.range td.length).map (fun b =>
    deep_clustering_loss_plain
      (flattenFrames ((xd.getD b []).take (td.getD b []).length))
      (flattenFrames (td.getD b []))))

/-- `deep_clustering_loss` with the type dispatch of the source: both
plain tensors, both packed sequences, or a `ValueError` naming the two
incompatible types. -/
def deep_clustering_loss
    (x t : TorchSeq (List (List ℚ)) (List (List (List (List ℚ))))) :
    Except PtError ℚ :=
  match x, t with
  | .tensor xd, .tensor td => .ok (deep_clustering_loss_plain xd td)
  | .packed xd, .packed td => .ok (dcPacked xd td)
  | x, t => .error (.valueError
      ("Incompatible types: " ++ torchTypeName x ++ ", " ++ torchTypeName t))

/-- The reserved target value excluded from the cross entropy average. -/
def IGNORE_INDEX : ℤ := -1

/-- Model of `torch.nn.CrossEntropyLoss(ignore_index=IGNORE_INDEX)` with the
default mean reduction, applied to flattened positions: the loss is
`Σₙ 1[tₙ ≠ ignore]·ℓ(xₙ, tₙ) / Σₙ 1[tₙ ≠ ignore]`.  The per-position
negative log-softmax is the external tensor library's floating-point code,
so it is abstracted as the parameter `l`; the axis move `move_axis(x, -1, 1)`
is a pure layout change for the torch API and is the identity here. -/
def crossEntropyLossMean (l : List ℚ → ℤ → ℚ) (xd : List (List ℚ)) (td : List ℤ) : ℚ :=
  (((xd.zip td).map (fun p => if p.2 = IGNORE_INDEX then 0 else l p.1 p.2)).sum) /
  (((xd.zip td).map (fun p => if p.2 = IGNORE_INDEX then (0 : ℚ) else 1)).sum)

/-- `softmax_cross_entropy` from the source: dispatch on the two input
types (packed inputs contribute their flattened `.data`), assert
`x.size()[:-1] == t.size()`, then apply the cross entropy. -/
def softmax_cross_entropy (l : List ℚ → ℤ → ℚ)
    (x : TorchSeq (List (List ℚ)) (List (List ℚ)))
    (t : TorchSeq (List ℤ) (List ℤ)) : Except PtError ℚ :=
  match x, t with
  | .tensor xd, .tensor td =>
      if xd.length = td.length then .ok (crossEntropyLossMean l xd td)
      else .error (.assertionError ("shape mismatch"))
  | .packed xd, .packed td =>
      if xd.length = td.length then .ok (crossEntropyLossMean l xd td)
      else .error (.assertionError ("shape mismatch"))
  | x, t => .error (.valueError
      ("Incompatible types: " ++ torchTypeName x ++ ", " ++ torchTypeName t))

/-- Manual exclusion of ignored positions: the pairs whose target is not
the ignore index. -/
def keptPairs (xd : List (List ℚ)) (td : List ℤ) : List (List ℚ × ℤ) :=
  (xd.zip td).filter (fun p => p.2 ≠ IGNORE_INDEX)

/-- The mean of the per-position losses over only the non-ignored
positions (the reference value the claim compares against). -/
def meanOverKept (l : List ℚ → ℤ → ℚ) (xd : List (List ℚ)) (td : List ℤ) : ℚ :=
  ((keptPairs xd td).map (fun p => l p.1 p.2)).sum / ((keptPairs xd td).length : ℚ)

/-- `torch.nn.functional.mse_loss` with the default mean reduction on
`(T, 2, F)` tensors: the mean over all `T·2·F` elements of the squared
difference. -/
def mse_loss {T F : ℕ} (a b : Fin T → Fin 2 → Fin F → ℚ) : ℚ :=
  (∑ t, ∑ k, ∑ f, (a t k f - b t k f) ^ 2) / ((T * 2 * F : ℕ) : ℚ)

/-- `target[:, permutation, :]`: reindex the source axis by `p`. -/
def permuteSources {T F : ℕ} (p : Fin 2 → Fin 2) (b : Fin T → Fin 2 → Fin F → ℚ) :
    Fin T → Fin 2 → Fin F → ℚ :=
  fun t k f => b t (p k) f

/-- The swap of the two source slots (the permutation `(1, 0)`). -/
def swapFin : Fin 2 → Fin 2 := fun k => if k = 0 then 1 else 0

/-- `itertools.permutations(range(2))` in iteration order: `(0, 1)` then
`(1, 0)`. -/
def pitPerms : List (Fin 2 → Fin 2) := [fun k => k, swapFin]

/-- `torch.min` over the stacked candidate losses. -/
def torchMinList : List ℚ → ℚ
  | [] => 0
  | x :: xs => xs.foldl min x

/-- `pit_mse_loss` from the source (`sources = 2`, no batch axis): the
minimum over both source permutations of the MSE against the permuted
target.  The python shape assert holds by type here since both arguments
share `(T, 2, F)`. -/
def pit_mse_loss {T F : ℕ} (estimate target : Fin T → Fin 2 → Fin F → ℚ) : ℚ :=
  torchMinList (pitPerms.map (fun p => mse_loss estimate (permuteSources p target)))

/-- A flattened batch of diagonal Normal distributions: per distribution a
mean vector `loc` and per-dimension `scale`. -/
structure NormalBatch (n D : ℕ) where
  loc : Fin n → Fin D → ℚ
  scale : Fin n → Fin D → ℚ

/-- A flattened batch of full-covariance Gaussians: per component a mean
vector and a lower-triangular covariance factor `scale_tril`. -/
structure MVNBatch (m D : ℕ) where
  loc : Fin m → Fin D → ℚ
  scale_tril : Fin m → Matrix (Fin D) (Fin D) ℚ

/-- `_batch_inverse` applied to one matrix: `m.inverse()` of the external
tensor library, modelled by the exact adjugate formula
`(det A)⁻¹ • adjugate A` over `ℚ` (torch raises on singular input; the
total model returns the zero matrix there). -/
def matInverse {D : ℕ} (A : Matrix (Fin D) (Fin D) ℚ) : Matrix (Fin D) (Fin D) ℚ :=
  (A.det)⁻¹ • A.adjugate

/-- `kl_normal_multivariatenormals` from the source on flattened batches,
as a function of the abstract elementwise logarithm `log` (the only
property of `log` ever used by the verified claims is that it is a
function): entry `(i, j)` is
`term1 + 0.5 * (term2 + term3 - D)` with the three terms exactly as in the
source, already transposed to `(q index, p index)` order as by
`.transpose(0, 1)`. -/
def kl_normal_multivariatenormals (log : ℚ → ℚ) {n m D : ℕ}
    (q : NormalBatch n D) (p : MVNBatch m D) : Matrix (Fin n) (Fin m) ℚ :=
  fun i j =>
    let L := matInverse (p.scale_tril j)
    let term1 := (∑ d, log (p.scale_tril j d d)) - (∑ d, log (q.scale i d))
    let term2 := ∑ d, (∑ r, (L r d) ^ 2) * (q.scale i d) ^ 2
    let term3 := ∑ r, (∑ c, (p.loc j c - q.loc i c) * L r c) ^ 2
    term1 + (1 / 2) * (term2 + term3 - (D : ℚ))

/-- An audio entry of a review: the source accepts a bare waveform (then
writes it with sample rate 16000) or a `(waveform, sample_rate)` pair.
Waveform payloads are opaque. -/
inductive AudioVal where
  | plain (wave : ℕ)
  | withRate (wave : ℕ) (rate : ℕ)
deriving DecidableEq

/-- A per-step review as consumed by `SummaryHook.update_summary`: the
recognized sub-mappings in python dict iteration order.  Scalar payloads
are already `.item()`-extracted rationals, histogram payloads are already
flattened. -/
structure Review where
  losses : List (String × ℚ) := []
  scalars : List (String × ℚ) := []
  histograms : List (String × List ℚ) := []
  audios : List (String × AudioVal) := []
  images : List (String × ℕ) := []
deriving DecidableEq

/-- The accumulator produced by `SummaryHook.empty_summary_dict` and
filled by `update_summary`; insertion-ordered association lists model the
python `defaultdict`/`dict` values. -/
structure Summary where
  losses : List (String × List ℚ) := []
  scalars : List (String × List ℚ) := []
  histograms : List (String × List ℚ) := []
  audios : List (String × AudioVal) := []
  images : List (String × ℕ) := []
deriving DecidableEq

/-- `empty_summary_dict`. -/
def emptySummary : Summary := {}

/-- `d[key].append(v)` on a `defaultdict(list)`: append to the existing
series or create the key at the end (python dict insertion order). -/
def updAppend (k : String) (v : ℚ) : List (String × List ℚ) → List (String × List ℚ)
  | [] => [(k, [v])]
  | (k₀, vs) :: rest =>
      if k₀ = k then (k₀, vs ++ [v]) :: rest else (k₀, vs) :: updAppend k v rest

/-- `d[key] = v` on a python dict: overwrite in place or insert at the end. -/
def updSnap {α : Type} (k : String) (v : α) : List (String × α) → List (String × α)
  | [] => [(k, v)]
  | (k₀, v₀) :: rest =>
      if k₀ = k then (k₀, v) :: rest else (k₀, v₀) :: updSnap k v rest

/-- Association-list lookup modelling python dict indexing. -/
def alGet {α : Type} (l : List (String × α)) (k : String) : Option α :=
  (l.find? (fun p => p.1 == k)).map (fun p => p.2)

/-- `l[-n:]`: the last `n` elements. -/
def lastN {α : Type} (n : ℕ) (l : List α) : List α := l.drop (l.length - n)

/-- The histogram update
`summary['histograms'][key] = concat(old_or_empty, new)[-10000:]`. -/
def updHist (k : String) (v : List ℚ) (l : List (String × List ℚ)) :
    List (String × List ℚ) :=
  updSnap k (lastN 10000 ((alGet l k).getD [] ++ v)) l

/-- `SummaryHook.update_summary(review)`: fold every recognized review
entry into the accumulator. -/
def update_summary (s : Summary) (r : Review) : Summary :=
  { losses := r.losses.foldl (fun acc p => updAppend p.1 p.2 acc) s.losses
    scalars := r.scalars.foldl (fun acc p => updAppend p.1 p.2 acc) s.scalars
    histograms := r.histograms.foldl (fun acc p => updHist p.1 p.2 acc) s.histograms
    audios := r.audios.foldl (fun acc p => updSnap p.1 p.2 acc) s.audios
    images := r.images.foldl (fun acc p => updSnap p.1 p.2 acc) s.images }

/-- Modelled from the spec: the shared `Timer` of the trainer
(`padertorch.train.trainer`, not under the provided sources) is a mapping
from metric name to the ordered samples accumulated since the last reset;
`as_dict` exposes exactly this mapping and `reset` clears it. -/
abbrev Timer : Type := List (String × List ℚ)

/-- Diagnostics printed by the hooks. -/
inductive Diag where
  /-- The `Warning: padertorch.Trainer timing bug.` message with the two
  mismatching sample counts `len(time_per_step)` and `len(scalar)`. -/
  | timingBug (lenTimePerStep lenScalar : ℕ)
deriving DecidableEq

/-- One write to the append-only tensorboard time-series sink. -/
inductive Write where
  | scalar (key : String) (value : ℚ) (iteration : ℕ)
  | histogram (key : String) (values : List ℚ) (iteration : ℕ)
  | audio (key : String) (wave : ℕ) (iteration : ℕ) (rate : ℕ)
  | image (key : String) (img : ℕ) (iteration : ℕ)
deriving DecidableEq

/-- The key renaming applied once the ratio against `time_per_step` has
been computed. -/
def renameRelKey (k : String) : String :=
  if k = "time_per_data_loading" then "time_rel_data_loading"
  else if k = "time_per_train_step" then "time_rel_train_step"
  else k

/-- The timer section of `dump_summary` for one `(key, scalar)` entry of
`timer.as_dict`: for the two special keys, when `time_per_step` is
present the value becomes the ratio `scalar.sum() / time_per_step.sum()`
(warning first when the sample counts differ) under the renamed key;
otherwise (and for every other key) the raw mean `scalar.mean()` is
written under the unchanged key. -/
def timerEntry (tag : String) (timer : Timer) (iteration : ℕ)
    (kv : String × List ℚ) : List Write × List Diag :=
  if kv.1 = "time_per_data_loading" ∨ kv.1 = "time_per_train_step" then
    match alGet timer "time_per_step" with
    | some tps =>
        ([Write.scalar (tag ++ "/" ++ renameRelKey kv.1) (kv.2.sum / tps.sum) iteration],
         if tps.length ≠ kv.2.length then [Diag.timingBug tps.length kv.2.length] else [])
    | none => ([Write.scalar (tag ++ "/" ++ kv.1) (npMean kv.2) iteration], [])
  else ([Write.scalar (tag ++ "/" ++ kv.1) (npMean kv.2) iteration], [])

/-- All writes and diagnostics of the timer section of `dump_summary`. -/
def timerWrites (tag : String) (timer : Timer) (iteration : ℕ) :
    List Write × List Diag :=
  (timer.flatMap (fun kv => (timerEntry tag timer iteration kv).1),
   timer.flatMap (fun kv => (timerEntry tag timer iteration kv).2))

/-- The trainer state visible to the hooks: the iteration and epoch
counters and the shared timer. -/
structure Trainer where
  iteration : ℕ
  epoch : ℕ
  timer : Timer
deriving DecidableEq

/-- The mutable state of a `SummaryHook`: its summary tag (the
`summary_prefix` of the source, `training` or `validation`) and the
accumulator.  The lazily created tensorboard writer and its storage
directory are external I/O and are not part of the state. -/
structure HookState where
  summaryTag : String
  summary : Summary
deriving DecidableEq

/-- `SummaryHook.__init__` state: an empty accumulator. -/
def initSummaryHook (tag : String) : HookState := ⟨tag, emptySummary⟩

/-- The observable outcome of one hook call: the writes it emitted, the
diagnostics it printed, and the updated hook and trainer states. -/
structure StepOut where
  writes : List Write
  diags : List Diag
  hook : HookState
  trainer : Trainer
deriving DecidableEq

/-- The audio write of `dump_summary`: a pair is written with its own
sample rate, a bare waveform with rate 16000. -/
def audioWrite (tag : String) (iteration : ℕ) (p : String × AudioVal) : Write :=
  match p.2 with
  | .withRate w r => Write.audio (tag ++ "/" ++ p.1) w iteration r
  | .plain w => Write.audio (tag ++ "/" ++ p.1) w iteration 16000

/-- `SummaryHook.dump_summary(trainer)`: write the mean of every loss and
scalar series, the timer section, the histogram buffers and the media
snapshots, all keyed `tag/name` at the current iteration; then clear the
summary (`reset_summary`) and reset the shared timer
(`trainer.reset_timer()`, modelled from the spec: reset clears all
series). -/
def dump_summary (h : HookState) (tr : Trainer) : StepOut :=
  let tag := h.summaryTag
  let it := tr.iteration
  let tw := timerWrites tag tr.timer it
  { writes :=
      (h.summary.losses.map (fun p => Write.scalar (tag ++ "/" ++ p.1) (npMean p.2) it))
      ++ (h.summary.scalars.map (fun p => Write.scalar (tag ++ "/" ++ p.1) (npMean p.2) it))
      ++ tw.1
      ++ (h.summary.histograms.map (fun p => Write.histogram (tag ++ "/" ++ p.1) p.2 it))
      ++ (h.summary.audios.map (audioWrite tag it))
      ++ (h.summary.images.map (fun p => Write.image (tag ++ "/" ++ p.1) p.2 it))
    diags := tw.2
    hook := { h with summary := emptySummary }
    trainer := { tr with timer := [] } }

/-- `SummaryHook.pre_step(trainer)`: flush iff the trigger fires at the
current `(iteration, epoch)` or the iteration counter equals 1.  The
trigger (constructed by `IntervalTrigger.new`, not under the provided
sources) is abstracted as an arbitrary predicate. -/
def summaryPreStep (trig : ℕ → ℕ → Bool) (h : HookState) (tr : Trainer) : StepOut :=
  if trig tr.iteration tr.epoch || tr.iteration == 1 then dump_summary h tr
  else { writes := [], diags := [], hook := h, trainer := tr }

/-- `SummaryHook.post_step`: fold the review into the accumulator (the
storage-directory bookkeeping for the lazily created writer is external
I/O and omitted). -/
def summaryPostStep (h : HookState) (r : Review) : HookState :=
  { h with summary := update_summary h.summary r }

/-- `ValidationHook.pre_step(trainer)`: when the trigger fires, assert
the shared timer holds no unflushed samples, run the validation pass
(`trainer.validate`, an external collaborator modelled by the yielded
review list and the timer contents it leaves behind), fold every review
into the accumulator, flush via `dump_summary`, and assert the timer is
empty again.  A failed assert is the python `AssertionError`. -/
def validationPreStep (trig : ℕ → ℕ → Bool) (h : HookState) (tr : Trainer)
    (reviews : List Review) (timerAfterValidate : Timer) : Except PtError StepOut :=
  if trig tr.iteration tr.epoch then
    if tr.timer = [] then
      let h₁ := reviews.foldl summaryPostStep h
      let out := dump_summary h₁ { tr with timer := timerAfterValidate }
      if out.trainer.timer = [] then .ok out
      else .error (.assertionError ("timer not empty after validation"))
    else .error (.assertionError ("timer not empty before validation"))
  else .ok { writes := [], diags := [], hook := h, trainer := tr }

/-- The unit of a trigger period. -/
inductive TrigUnit where
  | iteration
  | epoch
deriving DecidableEq

/-- Modelled from the spec: the `End` trigger
(`padertorch.train.trigger.EndTrigger`, not under the provided sources)
holds a maximum and a unit. -/
structure EndTrigger where
  n : ℕ
  unit : TrigUnit
deriving DecidableEq

/-- Modelled from the spec: an `End` trigger fires iff the counter in the
configured unit has reached or exceeded the configured maximum, and stays
true on every later call. -/
def endTriggerFires (t : EndTrigger) (iteration epoch : ℕ) : Bool :=
  match t.unit with
  | .iteration => t.n ≤ iteration
  | .epoch => t.n ≤ epoch

/-- The outcome of `StopTrainingHook.pre_step`: either the distinguished
`StopTraining` control-flow signal (its own exception class, not a
generic error: `class StopTraining(Exception)`), which the source raises
after printing the final epoch and iteration counts, or a plain return
with no effect. -/
inductive StopStep where
  | stopTraining (epoch : ℕ) (iteration : ℕ)
  | proceed
deriving DecidableEq

/-- `StopTrainingHook.pre_step(trainer)`: raise `StopTraining` iff the
`End` trigger fires at the current counters. -/
def stopTrainingPreStep (t : EndTrigger) (tr : Trainer) : StopStep :=
  if endTriggerFires t tr.iteration tr.epoch then .stopTraining tr.epoch tr.iteration
  else .proceed

/-! Concrete instances used by the witness theorems. -/

/-- A timer whose `time_per_data_loading` series has 1 sample while
`time_per_step` has 2. -/
def c2Timer : Timer := [("time_per_data_loading", [1]), ("time_per_step", [2, 2])]

/-- A trainer state at iteration 7 holding `c2Timer`. -/
def c2Trainer : Trainer := ⟨7, 0, c2Timer⟩

/-- A trigger that fires exactly at iteration 2. -/
def c3Trig : ℕ → ℕ → Bool := fun i _ => i == 2

/-- Some nonempty timer content present at the scenario flush. -/
def c3Tmr : Timer := [("time_per_step", [1])]

/-- A constant per-position loss used to instantiate the abstract
negative log-softmax. -/
def sceW_l : List ℚ → ℤ → ℚ := fun _ _ => 5

/-- Two logits rows. -/
def sceW_x : List (List ℚ) := [[1], [2]]

/-- Targets: one real class and one ignored position. -/
def sceW_t : List ℤ := [0, -1]

/-- A trainer state with an empty shared timer. -/
def valW_tr : Trainer := ⟨5, 1, []⟩

/-- A trainer state at iteration 1 with a nonempty timer. -/
def c9Tr : Trainer := ⟨1, 0, [("time_per_step", [1])]⟩

/-- One diagonal Normal with mean 3 and scale 2 in one dimension. -/
def klW_q : NormalBatch 1 1 := ⟨fun _ _ => 3, fun _ _ => 2⟩

/-- The same distribution expressed with a full covariance factor. -/
def klW_p : MVNBatch 1 1 := ⟨fun _ _ => 3, fun _ => Matrix.diagonal (fun _ => 2)⟩

/-! Helper lemmas. -/

theorem mse_loss_self {T F : ℕ} (a : Fin T → Fin 2 → Fin F → ℚ) : mse_loss a a = 0 := by
  simp [mse_loss]

theorem mse_loss_nonneg {T F : ℕ} (a b : Fin T → Fin 2 → Fin F → ℚ) : 0 ≤ mse_loss a b := by
  apply div_nonneg
  · refine Finset.sum_nonneg fun t _ => Finset.sum_nonneg fun k _ =>
      Finset.sum_nonneg fun f _ => ?_
    positivity
  · positivity

theorem swapFin_involutive : ∀ k, swapFin (swapFin k) = k := by decide

theorem permuteSources_swap_swap {T F : ℕ} (b : Fin T → Fin 2 → Fin F → ℚ) :
    permuteSources swapFin (permuteSources swapFin b) = b := by
  funext t k f
  simp [permuteSources, swapFin_involutive]

theorem indicator_sum_eq_filter_sum (f : List ℚ × ℤ → ℚ) :
    ∀ l : List (List ℚ × ℤ),
      (l.map (fun p => if p.2 = IGNORE_INDEX then 0 else f p)).sum
        = ((l.filter (fun p => p.2 ≠ IGNORE_INDEX)).map f).sum
  | [] => rfl
  | p :: l => by
    by_cases hp : p.2 = IGNORE_INDEX
    · simp [hp, indicator_sum_eq_filter_sum f l]
    · simp [hp, indicator_sum_eq_filter_sum f l]

theorem indicator_count_eq_filter_length :
    ∀ l : List (List ℚ × ℤ),
      (l.map (fun p => if p.2 = IGNORE_INDEX then (0 : ℚ) else 1)).sum
        = (((l.filter (fun p => p.2 ≠ IGNORE_INDEX)).length : ℚ))
  | [] => by simp
  | p :: l => by
    by_cases hp : p.2 = IGNORE_INDEX
    · simp [hp, indicator_count_eq_filter_length l]
    · simp [hp, indicator_count_eq_filter_length l]
      ring

theorem timer_entry_mismatch_out
    (tag : String) (timer : Timer) (it : ℕ) (key : String) (series tps : List ℚ)
    (hmem : (key, series) ∈ timer)
    (hkey : key = "time_per_data_loading" ∨ key = "time_per_train_step")
    (htps : alGet timer ("time_per_step") = some tps)
    (hlen : tps.length ≠ series.length) :
    Diag.timingBug tps.length series.length ∈ (timerWrites tag timer it).2
    ∧ Write.scalar (tag ++ "/" ++ renameRelKey key) (series.sum / tps.sum) it
        ∈ (timerWrites tag timer it).1 := by
  constructor
  · refine List.mem_flatMap.2 ⟨(key, series), hmem, ?_⟩
    simp [timerEntry, hkey, htps, hlen]
  · refine List.mem_flatMap.2 ⟨(key, series), hmem, ?_⟩
    simp [timerEntry, hkey, htps]

theorem matInverse_eq_inv {D : ℕ} (A : Matrix (Fin D) (Fin D) ℚ) : matInverse A = A⁻¹ := by
  rw [Matrix.inv_def, matInverse, Ring.inverse_eq_inv]

theorem matInverse_diagonal {D : ℕ} (v : Fin D → ℚ) (hv : ∀ d, v d ≠ 0) :
    matInverse (Matrix.diagonal v) = Matrix.diagonal (fun d => (v d)⁻¹) := by
  rw [matInverse_eq_inv]
  refine Matrix.inv_eq_left_inv ?_
  rw [Matrix.diagonal_mul_diagonal]
  have hone : (fun d => (v d)⁻¹ * v d) = fun _ => (1 : ℚ) :=
    funext fun d => inv_mul_cancel₀ (hv d)
  rw [hone, Matrix.diagonal_one]

/-! Claim theorems. -/

/-- C1: the claim states `deep_clustering_loss` on plain `(N, E)` and
`(N, K)` tensors equals the squared-Frobenius-norm combination divided by
`N²` with TRUE division.  The source instead uses the floor-division
operator `//`:  at `x = [[1/2]]`, `t = [[1]]` the combination is `9/16`,
so the claimed value is `9/16` while the source computes `⌊9/16⌋ = 0`.
The comment directly above the return statement says the loss lies in the
range `10^-2` to `10^0`, which floor division makes unreachable, so the
code contradicts its own documentation. -/
theorem deep_clustering_floor_division_bug :
    deep_clustering_loss_plain [[1/2]] [[1]] = 0
    ∧ deep_clustering_loss_true_division [[1/2]] [[1]] = 9/16
    ∧ deep_clustering_loss_plain [[1/2]] [[1]]
        ≠ deep_clustering_loss_true_division [[1/2]] [[1]] := by
  norm_num [deep_clustering_loss_plain, deep_clustering_loss_true_division,
    dcNumerator, gramSqSum, width, column, dot, List.range_succ]

/-- C2 counterexample: at a flush where `time_per_data_loading` holds 1
sample and `time_per_step` holds 2, `dump_summary` emits the timing-bug
diagnostic but writes the RATIO `1/4 = 1/(2+2)` under the renamed key; it
does not write the raw per-sample mean `1` of the series, contrary to the
claim that it falls back to the raw mean. -/
theorem dump_summary_mismatch_reports_ratio_not_mean :
    (dump_summary (initSummaryHook ("training")) c2Trainer).writes
      = [Write.scalar ("training/time_rel_data_loading") (1/4) 7,
         Write.scalar ("training/time_per_step") 2 7]
    ∧ (dump_summary (initSummaryHook ("training")) c2Trainer).diags = [Diag.timingBug 2 1]
    ∧ (1/4 : ℚ) ≠ npMean [1] := by
  refine ⟨?_, ?_, by norm_num [npMean]⟩
  · simp [dump_summary, initSummaryHook, emptySummary, c2Trainer, timerWrites, c2Timer,
      timerEntry, alGet, renameRelKey, npMean]
    norm_num
  · simp [dump_summary, initSummaryHook, emptySummary, c2Trainer, timerWrites, c2Timer,
      timerEntry, alGet]

/-- C2 (amended): for every flush in which `time_per_data_loading` or
`time_per_train_step` has a sample count different from that of a present
`time_per_step` series, `dump_summary` does not crash, emits the
timing-bug diagnostic, and still reports the ratio
`series_total / time_per_step_total` under the renamed relative-time key
(rather than the raw per-sample mean of the series). -/
theorem dump_summary_mismatch_warns_and_reports_ratio
    (h : HookState) (tr : Trainer) (key : String) (series tps : List ℚ)
    (hmem : (key, series) ∈ tr.timer)
    (hkey : key = "time_per_data_loading" ∨ key = "time_per_train_step")
    (htps : alGet tr.timer ("time_per_step") = some tps)
    (hlen : tps.length ≠ series.length) :
    Diag.timingBug tps.length series.length ∈ (dump_summary h tr).diags
    ∧ Write.scalar (h.summaryTag ++ "/" ++ renameRelKey key) (series.sum / tps.sum) tr.iteration
        ∈ (dump_summary h tr).writes := by
  have hent := timer_entry_mismatch_out h.summaryTag tr.timer tr.iteration key series tps
    hmem hkey htps hlen
  refine ⟨hent.1, ?_⟩
  simp only [dump_summary, List.mem_append]
  exact Or.inl (Or.inl (Or.inl (Or.inr hent.2)))

/-- C2 witness: the amended theorem applied to the concrete mismatched
timer `c2Timer`. -/
theorem dump_summary_mismatch_witness :
    ("time_per_data_loading", [(1 : ℚ)]) ∈ c2Trainer.timer
    ∧ alGet c2Trainer.timer ("time_per_step") = some [2, 2]
    ∧ ([(2 : ℚ), 2].length ≠ [(1 : ℚ)].length)
    ∧ Diag.timingBug 2 1 ∈ (dump_summary (initSummaryHook ("training")) c2Trainer).diags
    ∧ Write.scalar ((initSummaryHook ("training")).summaryTag ++ "/"
          ++ renameRelKey ("time_per_data_loading"))
        (List.sum [(1 : ℚ)] / List.sum [(2 : ℚ), 2]) c2Trainer.iteration
        ∈ (dump_summary (initSummaryHook ("training")) c2Trainer).writes := by
  refine ⟨by simp [c2Trainer, c2Timer], by simp [alGet, c2Trainer, c2Timer], by simp, ?_, ?_⟩
  · exact (dump_summary_mismatch_warns_and_reports_ratio (initSummaryHook ("training"))
      c2Trainer ("time_per_data_loading") [1] [2, 2] (by simp [c2Trainer, c2Timer])
      (Or.inl rfl) (by simp [alGet, c2Trainer, c2Timer]) (by simp)).1
  · exact (dump_summary_mismatch_warns_and_reports_ratio (initSummaryHook ("training"))
      c2Trainer ("time_per_data_loading") [1] [2, 2] (by simp [c2Trainer, c2Timer])
      (Or.inl rfl) (by simp [alGet, c2Trainer, c2Timer]) (by simp)).2

/-- C3: for a `SummaryHook` with summary tag `training` whose trigger
fires at iteration 2, after `post_step` calls delivering losses `a = 1`
at iteration 1 and `a = 3` at iteration 2, a `pre_step` at iteration 2
writes the scalar `training/a` with the mean value 2 keyed by iteration
2, and afterwards the summary accumulator is empty and the shared timer
is reset. -/
theorem summary_hook_flush_scenario (trig : ℕ → ℕ → Bool) (e : ℕ) (tmr : Timer)
    (hfire : trig 2 e = true) :
    Write.scalar ("training/a") 2 2 ∈ (summaryPreStep trig
      (summaryPostStep (summaryPostStep (initSummaryHook ("training"))
        { losses := [("a", 1)] }) { losses := [("a", 3)] })
      { iteration := 2, epoch := e, timer := tmr }).writes
    ∧ (summaryPreStep trig
      (summaryPostStep (summaryPostStep (initSummaryHook ("training"))
        { losses := [("a", 1)] }) { losses := [("a", 3)] })
      { iteration := 2, epoch := e, timer := tmr }).hook.summary = emptySummary
    ∧ (summaryPreStep trig
      (summaryPostStep (summaryPostStep (initSummaryHook ("training"))
        { losses := [("a", 1)] }) { losses := [("a", 3)] })
      { iteration := 2, epoch := e, timer := tmr }).trainer.timer = [] := by
  have h2 : summaryPostStep (summaryPostStep (initSummaryHook ("training"))
      { losses := [("a", 1)] }) { losses := [("a", 3)] }
      = ⟨"training", { emptySummary with losses := [("a", [1, 3])] }⟩ := by
    rfl
  simp only [summaryPreStep, hfire, Bool.true_or, if_true, h2]
  refine ⟨?_, rfl, rfl⟩
  have hmean : npMean [1, 3] = 2 := by norm_num [npMean]
  simp [dump_summary, emptySummary, hmean]

/-- C3 witness: the scenario instantiated with the period-2 trigger and a
nonempty timer. -/
theorem summary_hook_flush_scenario_witness :
    c3Trig 2 0 = true
    ∧ (Write.scalar ("training/a") 2 2 ∈ (summaryPreStep c3Trig
        (summaryPostStep (summaryPostStep (initSummaryHook ("training"))
          { losses := [("a", 1)] }) { losses := [("a", 3)] })
        { iteration := 2, epoch := 0, timer := c3Tmr }).writes
      ∧ (summaryPreStep c3Trig
        (summaryPostStep (summaryPostStep (initSummaryHook ("training"))
          { losses := [("a", 1)] }) { losses := [("a", 3)] })
        { iteration := 2, epoch := 0, timer := c3Tmr }).hook.summary = emptySummary
      ∧ (summaryPreStep c3Trig
        (summaryPostStep (summaryPostStep (initSummaryHook ("training"))
          { losses := [("a", 1)] }) { losses := [("a", 3)] })
        { iteration := 2, epoch := 0, timer := c3Tmr }).trainer.timer = []) :=
  ⟨rfl, summary_hook_flush_scenario c3Trig 0 c3Tmr rfl⟩

/-- C4: `StopTrainingHook.pre_step` raises the distinguished
`StopTraining` control-flow signal (the dedicated `StopStep.stopTraining`
outcome, separate from the `PtError` error type, carrying the final epoch
and iteration counts) if and only if its `End` trigger fires at the
current counters; when the trigger does not fire it returns with no
effect. -/
theorem stop_training_signal_iff_end_trigger (t : EndTrigger) (tr : Trainer) :
    (stopTrainingPreStep t tr = .stopTraining tr.epoch tr.iteration
      ↔ endTriggerFires t tr.iteration tr.epoch = true)
    ∧ (stopTrainingPreStep t tr = .proceed
      ↔ endTriggerFires t tr.iteration tr.epoch = false) := by
  cases hb : endTriggerFires t tr.iteration tr.epoch <;>
    simp [stopTrainingPreStep, hb]

/-- C5: whenever `ValidationHook.pre_step` runs a validation pass (its
trigger fires), the shared timer holds no unflushed samples immediately
before the pass and immediately after the flush; a nonempty timer before
the pass raises the fatal `AssertionError` instead of being silently
ignored. -/
theorem validation_timer_empty_invariant
    (trig : ℕ → ℕ → Bool) (h : HookState) (tr : Trainer)
    (reviews : List Review) (tAfter : Timer)
    (hfire : trig tr.iteration tr.epoch = true) :
    (tr.timer ≠ [] →
      validationPreStep trig h tr reviews tAfter
        = .error (.assertionError ("timer not empty before validation")))
    ∧ (∀ out, validationPreStep trig h tr reviews tAfter = .ok out →
        tr.timer = [] ∧ out.trainer.timer = []) := by
  have hdump : (dump_summary (reviews.foldl summaryPostStep h)
      { tr with timer := tAfter }).trainer.timer = [] := rfl
  unfold validationPreStep
  simp only [hfire, if_true]
  by_cases hT : tr.timer = []
  · refine ⟨fun hc => absurd hT hc, fun out hout => ?_⟩
    rw [if_pos hT, if_pos hdump] at hout
    injection hout with hout
    subst hout
    exact ⟨hT, hdump⟩
  · refine ⟨fun _ => by rw [if_neg hT], fun out hout => ?_⟩
    rw [if_neg hT] at hout
    exact absurd hout (by simp)

/-- C5 witness: the invariant applied with an always-firing trigger and
an empty timer. -/
theorem validation_timer_invariant_witness :
    ((fun _ _ => true) valW_tr.iteration valW_tr.epoch = true)
    ∧ ((valW_tr.timer ≠ [] →
        validationPreStep (fun _ _ => true) (initSummaryHook ("validation")) valW_tr [] []
          = .error (.assertionError ("timer not empty before validation")))
      ∧ (∀ out, validationPreStep (fun _ _ => true) (initSummaryHook ("validation")) valW_tr [] []
            = .ok out → valW_tr.timer = [] ∧ out.trainer.timer = [])) :=
  ⟨rfl, validation_timer_empty_invariant (fun _ _ => true)
    (initSummaryHook ("validation")) valW_tr [] [] rfl⟩

/-- C6: `pit_mse_loss` equals the minimum over both permutations of the
two source slots of the MSE between the estimate and the permuted
target; in particular it is exactly 0 when the estimate equals the
target, and exactly 0 when the estimate equals the target with the two
sources swapped. -/
theorem pit_mse_loss_is_min_over_permutations {T F : ℕ}
    (estimate target : Fin T → Fin 2 → Fin F → ℚ) :
    pit_mse_loss estimate target
      = min (mse_loss estimate target) (mse_loss estimate (permuteSources swapFin target))
    ∧ pit_mse_loss estimate estimate = 0
    ∧ pit_mse_loss estimate (permuteSources swapFin estimate) = 0 := by
  have hmin : ∀ tgt, pit_mse_loss estimate tgt
      = min (mse_loss estimate tgt) (mse_loss estimate (permuteSources swapFin tgt)) :=
    fun tgt => rfl
  refine ⟨hmin target, ?_, ?_⟩
  · rw [hmin, mse_loss_self]
    exact min_eq_left (mse_loss_nonneg _ _)
  · rw [hmin, permuteSources_swap_swap, mse_loss_self]
    exact min_eq_right (mse_loss_nonneg _ _)

/-- C7: for plain tensors with matching shapes, `softmax_cross_entropy`
excludes every position whose target equals the reserved ignore index
`-1` from the loss average: it equals the mean of the per-position losses
over only the non-ignored positions, for every per-position loss
function. -/
theorem softmax_cross_entropy_excludes_ignore_index
    (l : List ℚ → ℤ → ℚ) (xd : List (List ℚ)) (td : List ℤ)
    (h : xd.length = td.length) :
    softmax_cross_entropy l (.tensor xd) (.tensor td) = .ok (meanOverKept l xd td) := by
  rw [softmax_cross_entropy, if_pos h]
  unfold crossEntropyLossMean meanOverKept keptPairs
  rw [indicator_sum_eq_filter_sum, indicator_count_eq_filter_length]

/-- C7 witness: with a constant per-position loss 5, one real target and
one ignored target, the loss is 5 (the ignored position is excluded). -/
theorem softmax_cross_entropy_ignore_witness :
    sceW_x.length = sceW_t.length
    ∧ softmax_cross_entropy sceW_l (.tensor sceW_x) (.tensor sceW_t) = .ok 5 := by
  refine ⟨rfl, ?_⟩
  rw [softmax_cross_entropy_excludes_ignore_index sceW_l sceW_x sceW_t rfl]
  norm_num [meanOverKept, keptPairs, sceW_l, sceW_x, sceW_t, IGNORE_INDEX]

/-- C8: every entry of `kl_normal_multivariatenormals(q, p)` that pairs a
diagonal Normal with the full-covariance Gaussian representing the same
distribution (equal means, covariance factor the diagonal matrix of the
scales, scales nonzero) equals 0, for every elementwise logarithm; the
result is an `n × m` matrix indexed by the flattened `q` batch and `p`
component axes. -/
theorem kl_normal_mvn_self_pair_zero (log : ℚ → ℚ) {n m D : ℕ}
    (q : NormalBatch n D) (p : MVNBatch m D) (i : Fin n) (j : Fin m)
    (hloc : p.loc j = q.loc i)
    (htril : p.scale_tril j = Matrix.diagonal (q.scale i))
    (hscale : ∀ d, q.scale i d ≠ 0) :
    kl_normal_multivariatenormals log q p i j = 0 := by
  have hinv : matInverse (Matrix.diagonal (q.scale i))
      = Matrix.diagonal (fun d => (q.scale i d)⁻¹) :=
    matInverse_diagonal _ hscale
  have hterm1 : (∑ d, log (Matrix.diagonal (q.scale i) d d)) - (∑ d, log (q.scale i d)) = 0 := by
    simp [Matrix.diagonal_apply_eq]
  have hcol : ∀ d : Fin D, (∑ r, ((Matrix.diagonal (fun x => (q.scale i x)⁻¹)) r d) ^ 2)
      = ((q.scale i d)⁻¹) ^ 2 := by
    intro d
    rw [Finset.sum_eq_single d]
    · rw [Matrix.diagonal_apply_eq]
    · intro r _ hr
      rw [Matrix.diagonal_apply_ne _ hr]
      ring
    · intro hd
      exact absurd (Finset.mem_univ d) hd
  have hterm2 : (∑ d, (∑ r, ((Matrix.diagonal (fun x => (q.scale i x)⁻¹)) r d) ^ 2)
      * (q.scale i d) ^ 2) = (D : ℚ) := by
    calc (∑ d, (∑ r, ((Matrix.diagonal (fun x => (q.scale i x)⁻¹)) r d) ^ 2)
          * (q.scale i d) ^ 2)
        = ∑ _d : Fin D, (1 : ℚ) := by
          refine Finset.sum_congr rfl fun d _ => ?_
          rw [hcol d, ← mul_pow, inv_mul_cancel₀ (hscale d), one_pow]
      _ = (D : ℚ) := by simp
  have hterm3 : (∑ r, (∑ c, (q.loc i c - q.loc i c)
      * (Matrix.diagonal (fun x => (q.scale i x)⁻¹)) r c) ^ 2) = 0 := by
    simp
  simp only [kl_normal_multivariatenormals, htril, hloc, hinv]
  rw [hterm1, hterm2, hterm3]
  ring

/-- C8 witness: the pairing of the concrete diagonal Normal with its own
full-covariance representation has KL divergence 0. -/
theorem kl_self_pair_zero_witness :
    klW_p.loc 0 = klW_q.loc 0
    ∧ klW_p.scale_tril 0 = Matrix.diagonal (klW_q.scale 0)
    ∧ (∀ d, klW_q.scale 0 d ≠ 0)
    ∧ kl_normal_multivariatenormals (fun x => x) klW_q klW_p 0 0 = 0 :=
  ⟨rfl, rfl, fun _ => by norm_num [klW_q],
    kl_normal_mvn_self_pair_zero (fun x => x) klW_q klW_p 0 0 rfl rfl
      (fun _ => by norm_num [klW_q])⟩

/-- C9: `SummaryHook.pre_step` performs a flush unconditionally whenever
the iteration counter equals 1, for every trigger (whether or not it
fires there). -/
theorem summary_flush_unconditional_on_first_iteration
    (trig : ℕ → ℕ → Bool) (h : HookState) (tr : Trainer) (h1 : tr.iteration = 1) :
    summaryPreStep trig h tr = dump_summary h tr := by
  simp [summaryPreStep, h1]

/-- C9 witness: a never-firing trigger still flushes at iteration 1. -/
theorem summary_flush_first_iteration_witness :
    c9Tr.iteration = 1
    ∧ summaryPreStep (fun _ _ => false) (initSummaryHook ("training")) c9Tr
        = dump_summary (initSummaryHook ("training")) c9Tr :=
  ⟨rfl, summary_flush_unconditional_on_first_iteration _ _ _ rfl⟩

/-- C10: whenever one argument is a plain tensor and the other a packed
sequence, `softmax_cross_entropy` and `deep_clustering_loss` raise a
`ValueError` naming the two incompatible types instead of computing a
loss. -/
theorem incompatible_types_raise_value_error :
    ∀ (l : List ℚ → ℤ → ℚ) (a b : List (List ℚ)) (c d : List ℤ)
      (e f : List (List ℚ)) (g k : List (List (List (List ℚ)))),
    softmax_cross_entropy l (.tensor a) (.packed d)
      = .error (.valueError ("Incompatible types: Tensor, PackedSequence"))
    ∧ softmax_cross_entropy l (.packed b) (.tensor c)
      = .error (.valueError ("Incompatible types: PackedSequence, Tensor"))
    ∧ deep_clustering_loss (.tensor e) (.packed k)
      = .error (.valueError ("Incompatible types: Tensor, PackedSequence"))
    ∧ deep_clustering_loss (.packed g) (.tensor f)
      = .error (.valueError ("Incompatible types: PackedSequence, Tensor")) := by
  intro _ _ _ _ _ _ _ _ _
  exact ⟨rfl, rfl, rfl, rfl⟩

end Padertorch
